import Mathlib

/-!
Shallow embedding of the SpotiSonic configuration module
(spotisonic/config.py): a JSON configuration file on disk merged with a
fixed default mapping, plus get/set/reset accessors.

The configuration document is a flat mapping from string keys to scalar
values.  We embed Python dicts as association lists with Python dict
semantics: `dictGet` is `d.get(k)`, `dictInsert` is `d[k] = v`
(replace in place if the key exists, otherwise append), and
`dictMerge a b` is the double-splat union where the keys of `b` win on
overlap.  The file system is a small state: whether the parent directory
exists, and the file content, which is either absent, present but not
valid JSON, or a parsed JSON object.
-/

/-- A JSON scalar value: integer, boolean or string. -/
inductive Value : Type
  | vInt  (n : Int)
  | vBool (b : Bool)
  | vStr  (s : String)
deriving DecidableEq, Repr

/-- A configuration document: a flat mapping from string keys to scalar
values, embedded as an association list. -/
def Cfg : Type := List (String × Value)

instance : DecidableEq Cfg := by unfold Cfg; infer_instance

/-- Python `d.get(k)`: the value at `k`, or `none` when `k` is absent. -/
def dictGet : Cfg → String → Option Value
  | [], _ => none
  | (k₀, v₀) :: rest, k => if k₀ = k then some v₀ else dictGet rest k

/-- Python `d[k] = v`: replace the value at `k` in place when `k` is
present, otherwise append the pair at the end. -/
def dictInsert : Cfg → String → Value → Cfg
  | [], k, v => [(k, v)]
  | (k₀, v₀) :: rest, k, v =>
      if k₀ = k then (k, v) :: rest
      else (k₀, v₀) :: dictInsert rest k v

/-- Python double-splat union of two dicts: start from `a` and write every
pair of `b` into it, so the values of `b` win on overlapping keys. -/
def dictMerge (a b : Cfg) : Cfg :=
  b.foldl (fun acc p => dictInsert acc p.1 p.2) a

/-- The list of keys of a document. -/
def dictKeys (c : Cfg) : List String := c.map Prod.fst

/-- The document has no repeated key, as a parsed Python dict always does. -/
def NodupKeys (c : Cfg) : Prop := (dictKeys c).Nodup

instance (c : Cfg) : Decidable (NodupKeys c) := by
  unfold NodupKeys; infer_instance

/-- Two documents are equal as mappings (Python dict equality). -/
def MapEq (a b : Cfg) : Prop := ∀ k, dictGet a k = dictGet b k

instance : Repr Cfg := by unfold Cfg; infer_instance

/-- The content of the file at CONFIG_PATH. -/
inductive FileContent : Type
  | absent
  | malformed
  | doc (c : Cfg)
deriving DecidableEq, Repr

/-- The file-system state seen by the module: whether the parent directory
of CONFIG_PATH exists, and the content of the file. -/
structure FsState : Type where
  dirExists : Bool
  file : FileContent
deriving DecidableEq, Repr

/-- DEFAULT_CONFIG from config.py: the six hard-coded defaults. -/
def DEFAULT_CONFIG : Cfg :=
  [("default_preview_length", .vInt 30),
   ("default_shuffle", .vBool true),
   ("default_scrobble", .vBool true),
   ("min_liked_for_artist", .vInt 1),
   ("min_bookmarked_for_artist", .vInt 1),
   ("max_plays_for_new_artist", .vInt 0)]

/-- save_config from config.py: `os.makedirs(parent, exist_ok=True)` then
write the serialized dict, overwriting the file in full. -/
def save_config (config_dict : Cfg) (_fs : FsState) : FsState :=
  { dirExists := true, file := .doc config_dict }

/-- load_config from config.py: read and parse the file and merge the
defaults underneath; on FileNotFoundError make the parent directory,
save the defaults and return a copy of them; on JSONDecodeError save the
defaults and return a copy of them. -/
def load_config (fs : FsState) : Cfg × FsState :=
  match fs.file with
  | .doc c => (dictMerge DEFAULT_CONFIG c, fs)
  | .absent =>
      let fs₁ : FsState := { fs with dirExists := true }
      (DEFAULT_CONFIG, save_config DEFAULT_CONFIG fs₁)
  | .malformed =>
      (DEFAULT_CONFIG, save_config DEFAULT_CONFIG fs)

/-- get_config_value from config.py: load the full configuration and
return `config.get(key, default)`.  The Python default parameter
defaults to None, embedded as `none`. -/
def get_config_value (key : String) (default : Option Value) (fs : FsState) :
    Option Value × FsState :=
  let r := load_config fs
  (match dictGet r.1 key with
   | some v => some v
   | none => default, r.2)

/-- set_config_value from config.py: load the full configuration, set
`key` to `value` in the in-memory dict, and save the whole dict back. -/
def set_config_value (key : String) (value : Value) (fs : FsState) : FsState :=
  let r := load_config fs
  save_config (dictInsert r.1 key value) r.2

/-- reset_to_defaults from config.py: save DEFAULT_CONFIG and return a
copy of it. -/
def reset_to_defaults (fs : FsState) : Cfg × FsState :=
  (DEFAULT_CONFIG, save_config DEFAULT_CONFIG fs)

/-! ### Dictionary lemmas -/

theorem dictGet_insert_self (c : Cfg) (k : String) (v : Value) :
    dictGet (dictInsert c k v) k = some v := by
  induction c with
  | nil => simp [dictInsert, dictGet]
  | cons p rest ih =>
      obtain ⟨k₀, v₀⟩ := p
      by_cases h : k₀ = k
      · simp [dictInsert, dictGet, h]
      · simp [dictInsert, dictGet, h, ih]

theorem dictGet_insert_ne (c : Cfg) (k k' : String) (v : Value)
    (h : k' ≠ k) : dictGet (dictInsert c k v) k' = dictGet c k' := by
  have h' : ¬ k = k' := fun hh => h hh.symm
  induction c with
  | nil => simp [dictInsert, dictGet, h']
  | cons p rest ih =>
      obtain ⟨k₀, v₀⟩ := p
      by_cases h₀ : k₀ = k
      · subst h₀
        simp [dictInsert, dictGet, h']
      · simp [dictInsert, dictGet, h₀, ih]

theorem isSome_dictGet_insert (c : Cfg) (k k' : String) (v : Value)
    (h : (dictGet c k').isSome) :
    (dictGet (dictInsert c k v) k').isSome := by
  by_cases hk : k' = k
  · subst hk; simp [dictGet_insert_self]
  · rwa [dictGet_insert_ne c k k' v hk]

theorem dictMerge_nil (a : Cfg) : dictMerge a [] = a := rfl

theorem dictMerge_cons (a : Cfg) (p : String × Value) (b : Cfg) :
    dictMerge a (p :: b) = dictMerge (dictInsert a p.1 p.2) b := rfl

theorem isSome_dictGet_merge_left (a b : Cfg) (k : String)
    (h : (dictGet a k).isSome) :
    (dictGet (dictMerge a b) k).isSome := by
  induction b generalizing a with
  | nil => simpa [dictMerge_nil] using h
  | cons p rest ih =>
      rw [dictMerge_cons]
      exact ih _ (isSome_dictGet_insert _ _ _ _ h)

theorem dictKeys_cons (p : String × Value) (c : Cfg) :
    dictKeys (p :: c) = p.1 :: dictKeys c := rfl

theorem dictGet_isSome_iff_mem (c : Cfg) (k : String) :
    (dictGet c k).isSome ↔ k ∈ dictKeys c := by
  induction c with
  | nil => simp [dictGet, dictKeys]
  | cons p rest ih =>
      obtain ⟨k₀, v₀⟩ := p
      rw [dictKeys_cons]
      by_cases h : k₀ = k
      · subst h; simp [dictGet]
      · have h' : ¬ k = k₀ := fun hh => h hh.symm
        simp [dictGet, h, h', List.mem_cons, ih]

theorem dictGet_eq_none_iff (c : Cfg) (k : String) :
    dictGet c k = none ↔ k ∉ dictKeys c := by
  rw [← dictGet_isSome_iff_mem, Option.not_isSome_iff_eq_none]

theorem dictKeys_insert (c : Cfg) (k : String) (v : Value) :
    dictKeys (dictInsert c k v) =
      if k ∈ dictKeys c then dictKeys c else dictKeys c ++ [k] := by
  induction c with
  | nil => simp [dictInsert, dictKeys]
  | cons p rest ih =>
      obtain ⟨k₀, v₀⟩ := p
      by_cases h : k₀ = k
      · subst h; simp [dictInsert, dictKeys]
      · have h' : ¬ k = k₀ := fun hh => h hh.symm
        have hins : dictInsert ((k₀, v₀) :: rest) k v =
            (k₀, v₀) :: dictInsert rest k v := by
          simp [dictInsert, h]
        rw [hins, dictKeys_cons, dictKeys_cons, ih]
        by_cases hm : k ∈ dictKeys rest
        · simp [hm, h', List.mem_cons]
        · simp [hm, h', List.mem_cons]

theorem NodupKeys_insert (c : Cfg) (k : String) (v : Value)
    (h : NodupKeys c) : NodupKeys (dictInsert c k v) := by
  unfold NodupKeys at h ⊢
  rw [dictKeys_insert]
  by_cases hm : k ∈ dictKeys c
  · simpa [hm] using h
  · simp only [hm, if_false]
    refine List.Nodup.append h (List.nodup_singleton k) ?_
    intro x hx hk
    rw [List.mem_singleton] at hk
    exact hm (hk ▸ hx)

theorem NodupKeys_merge (a b : Cfg) (h : NodupKeys a) :
    NodupKeys (dictMerge a b) := by
  induction b generalizing a with
  | nil => simpa [dictMerge_nil] using h
  | cons p rest ih =>
      rw [dictMerge_cons]
      exact ih _ (NodupKeys_insert _ _ _ h)

theorem dictGet_merge (a b : Cfg) (hb : NodupKeys b) (k : String) :
    dictGet (dictMerge a b) k =
      match dictGet b k with
      | some v => some v
      | none => dictGet a k := by
  induction b generalizing a with
  | nil => simp [dictMerge_nil, dictGet]
  | cons p rest ih =>
      obtain ⟨k₀, v₀⟩ := p
      have hb' : NodupKeys rest := by
        unfold NodupKeys dictKeys at hb ⊢
        exact (List.nodup_cons.mp hb).2
      have hk₀ : k₀ ∉ dictKeys rest := by
        unfold NodupKeys dictKeys at hb
        exact (List.nodup_cons.mp hb).1
      rw [dictMerge_cons, ih _ hb']
      by_cases h : k₀ = k
      · subst h
        have hnone : dictGet rest k₀ = none := (dictGet_eq_none_iff _ _).mpr hk₀
        simp [hnone, dictGet, dictGet_insert_self]
      · have h' : k ≠ k₀ := fun hh => h hh.symm
        simp [dictGet, h, dictGet_insert_ne a k₀ k v₀ h']

/-! ### Load-level helper lemmas -/

theorem NodupKeys_DEFAULT : NodupKeys DEFAULT_CONFIG := by decide

theorem dictMerge_DEFAULT_DEFAULT :
    dictMerge DEFAULT_CONFIG DEFAULT_CONFIG = DEFAULT_CONFIG := by decide

theorem NodupKeys_load (fs : FsState) : NodupKeys (load_config fs).1 := by
  obtain ⟨d, f⟩ := fs
  cases f with
  | absent => exact NodupKeys_DEFAULT
  | malformed => exact NodupKeys_DEFAULT
  | doc c => exact NodupKeys_merge _ _ NodupKeys_DEFAULT

theorem load_default_keys_present (fs : FsState) (k : String)
    (h : (dictGet DEFAULT_CONFIG k).isSome) :
    (dictGet (load_config fs).1 k).isSome := by
  obtain ⟨d, f⟩ := fs
  cases f with
  | absent => exact h
  | malformed => exact h
  | doc c => exact isSome_dictGet_merge_left _ _ _ h

/-! ### Claims -/

/-- C1 counterexample: the round-trip claim is false as stated.  Saving the
one-key mapping with key custom_setting and then loading does not return
that mapping: the load merges the six default keys underneath, so the
result differs from X at the key default_shuffle. -/
theorem C1_roundtrip_counterexample :
    ¬ MapEq
      (load_config (save_config [("custom_setting", .vStr "test")]
        (FsState.mk true (.doc [])))).1
      [("custom_setting", .vStr "test")] := by
  intro h
  have hk := h "default_shuffle"
  revert hk
  decide

/-- C1 amended: Save(X) followed by Load() returns the union of
DEFAULT_CONFIG and X with the values of X winning on overlap; that result
equals X as a mapping exactly when X already contains every key of
DEFAULT_CONFIG. -/
theorem C1_save_load_amended (X : Cfg) (fs : FsState) (hX : NodupKeys X) :
    (load_config (save_config X fs)).1 = dictMerge DEFAULT_CONFIG X ∧
    (MapEq (load_config (save_config X fs)).1 X ↔
      ∀ k ∈ dictKeys DEFAULT_CONFIG, k ∈ dictKeys X) := by
  refine ⟨rfl, ?_⟩
  constructor
  · intro h k hk
    have h1 : (dictGet DEFAULT_CONFIG k).isSome :=
      (dictGet_isSome_iff_mem _ _).mpr hk
    have h2 : (dictGet (dictMerge DEFAULT_CONFIG X) k).isSome :=
      isSome_dictGet_merge_left _ _ _ h1
    have h3 : dictGet (dictMerge DEFAULT_CONFIG X) k = dictGet X k := h k
    rw [← dictGet_isSome_iff_mem, ← h3]
    exact h2
  · intro hsub k
    show dictGet (dictMerge DEFAULT_CONFIG X) k = dictGet X k
    rw [dictGet_merge _ _ hX]
    cases hx : dictGet X k with
    | some v => simp
    | none =>
        simp only []
        rw [dictGet_eq_none_iff]
        intro hk
        have hmem := hsub k hk
        rw [← dictGet_isSome_iff_mem, hx] at hmem
        simp at hmem

/-- C1 amended, witness at X = DEFAULT_CONFIG on a fresh state. -/
theorem C1_save_load_amended_witness :
    NodupKeys DEFAULT_CONFIG ∧
    ((load_config (save_config DEFAULT_CONFIG (FsState.mk false .absent))).1 =
        dictMerge DEFAULT_CONFIG DEFAULT_CONFIG ∧
      (MapEq
          (load_config (save_config DEFAULT_CONFIG (FsState.mk false .absent))).1
          DEFAULT_CONFIG ↔
        ∀ k ∈ dictKeys DEFAULT_CONFIG, k ∈ dictKeys DEFAULT_CONFIG)) :=
  ⟨by decide,
   C1_save_load_amended DEFAULT_CONFIG (FsState.mk false .absent) (by decide)⟩

/-- C2: when the file content does not parse as JSON, load_config returns
DEFAULT_CONFIG, overwrites the file with DEFAULT_CONFIG, and the next
load parses the file and again returns DEFAULT_CONFIG. -/
theorem C2_malformed_self_heal (fs : FsState) (h : fs.file = .malformed) :
    (load_config fs).1 = DEFAULT_CONFIG ∧
    ((load_config fs).2).file = .doc DEFAULT_CONFIG ∧
    (load_config (load_config fs).2).1 = DEFAULT_CONFIG := by
  obtain ⟨d, f⟩ := fs
  have hf : f = FileContent.malformed := h
  subst hf
  exact ⟨rfl, rfl, dictMerge_DEFAULT_DEFAULT⟩

/-- C2 witness on a malformed file. -/
theorem C2_malformed_self_heal_witness :
    (FsState.mk true .malformed).file = .malformed ∧
    ((load_config (FsState.mk true .malformed)).1 = DEFAULT_CONFIG ∧
      ((load_config (FsState.mk true .malformed)).2).file = .doc DEFAULT_CONFIG ∧
      (load_config (load_config (FsState.mk true .malformed)).2).1 =
        DEFAULT_CONFIG) :=
  ⟨rfl, C2_malformed_self_heal (FsState.mk true .malformed) rfl⟩

/-- C3: when no file exists, load_config ensures the parent directory
exists (with no error when it already does), writes DEFAULT_CONFIG to the
file, and returns DEFAULT_CONFIG. -/
theorem C3_absent_creates_defaults (fs : FsState) (h : fs.file = .absent) :
    (load_config fs).1 = DEFAULT_CONFIG ∧
    ((load_config fs).2).dirExists = true ∧
    ((load_config fs).2).file = .doc DEFAULT_CONFIG := by
  obtain ⟨d, f⟩ := fs
  have hf : f = FileContent.absent := h
  subst hf
  exact ⟨rfl, rfl, rfl⟩

/-- C3 witness: the file is absent while the directory already exists, and
the load still succeeds and writes the defaults. -/
theorem C3_absent_creates_defaults_witness :
    (FsState.mk true .absent).file = .absent ∧
    ((load_config (FsState.mk true .absent)).1 = DEFAULT_CONFIG ∧
      ((load_config (FsState.mk true .absent)).2).dirExists = true ∧
      ((load_config (FsState.mk true .absent)).2).file = .doc DEFAULT_CONFIG) :=
  ⟨rfl, C3_absent_creates_defaults (FsState.mk true .absent) rfl⟩

/-- C4: when the file holds a valid partial document D, load_config returns
the union of DEFAULT_CONFIG and D: the values of D win on every
overlapping key and the defaults fill every key absent from D. -/
theorem C4_load_merges_partial (D : Cfg) (fs : FsState) (hD : NodupKeys D)
    (h : fs.file = .doc D) :
    (load_config fs).1 = dictMerge DEFAULT_CONFIG D ∧
    ∀ k, dictGet (load_config fs).1 k =
      match dictGet D k with
      | some v => some v
      | none => dictGet DEFAULT_CONFIG k := by
  obtain ⟨dir, f⟩ := fs
  have hf : f = FileContent.doc D := h
  subst hf
  refine ⟨rfl, ?_⟩
  intro k
  exact dictGet_merge DEFAULT_CONFIG D hD k

/-- C4 witness on the partial document of the test suite. -/
theorem C4_load_merges_partial_witness :
    NodupKeys [("default_preview_length", .vInt 45),
               ("custom_setting", Value.vStr "test")] ∧
    ((load_config (FsState.mk true
          (.doc [("default_preview_length", .vInt 45),
                 ("custom_setting", Value.vStr "test")]))).1 =
        dictMerge DEFAULT_CONFIG
          [("default_preview_length", .vInt 45),
           ("custom_setting", Value.vStr "test")] ∧
      ∀ k, dictGet (load_config (FsState.mk true
            (.doc [("default_preview_length", .vInt 45),
                   ("custom_setting", Value.vStr "test")]))).1 k =
        match dictGet [("default_preview_length", .vInt 45),
                       ("custom_setting", Value.vStr "test")] k with
        | some v => some v
        | none => dictGet DEFAULT_CONFIG k) :=
  ⟨by decide,
   C4_load_merges_partial
     [("default_preview_length", .vInt 45), ("custom_setting", Value.vStr "test")]
     (FsState.mk true
       (.doc [("default_preview_length", .vInt 45),
              ("custom_setting", Value.vStr "test")]))
     (by decide) rfl⟩

/-- C5: whatever the initial file state (absent, malformed or a valid
document), the mapping returned by load_config contains every key of
DEFAULT_CONFIG. -/
theorem C5_defaults_always_present (fs : FsState) (k : String)
    (hk : k ∈ dictKeys DEFAULT_CONFIG) :
    (dictGet (load_config fs).1 k).isSome :=
  load_default_keys_present fs k ((dictGet_isSome_iff_mem _ _).mpr hk)

/-- C5 witness: a default key is present after loading a fresh state. -/
theorem C5_defaults_always_present_witness :
    "max_plays_for_new_artist" ∈ dictKeys DEFAULT_CONFIG ∧
    (dictGet (load_config (FsState.mk false .absent)).1
      "max_plays_for_new_artist").isSome :=
  ⟨by decide,
   C5_defaults_always_present (FsState.mk false .absent)
     "max_plays_for_new_artist" (by decide)⟩

/-- C6: for every key, value and prior file state, set_config_value
followed by load_config shows the new value at the key, and every other
key reads exactly as it did before the set. -/
theorem C6_set_then_load (k : String) (v : Value) (fs : FsState) :
    dictGet (load_config (set_config_value k v fs)).1 k = some v ∧
    ∀ k', k' ≠ k →
      dictGet (load_config (set_config_value k v fs)).1 k' =
        dictGet (load_config fs).1 k' := by
  have hins : NodupKeys (dictInsert (load_config fs).1 k v) :=
    NodupKeys_insert _ _ _ (NodupKeys_load fs)
  constructor
  · show dictGet
        (dictMerge DEFAULT_CONFIG (dictInsert (load_config fs).1 k v)) k = some v
    rw [dictGet_merge _ _ hins]
    simp [dictGet_insert_self]
  · intro k' hk'
    show dictGet
        (dictMerge DEFAULT_CONFIG (dictInsert (load_config fs).1 k v)) k' =
      dictGet (load_config fs).1 k'
    rw [dictGet_merge _ _ hins, dictGet_insert_ne _ _ _ _ hk']
    cases hx : dictGet (load_config fs).1 k' with
    | some w => simp
    | none =>
        simp only []
        rw [dictGet_eq_none_iff]
        intro hmem
        have hs := load_default_keys_present fs k'
          ((dictGet_isSome_iff_mem _ _).mpr hmem)
        rw [hx] at hs
        simp at hs

/-- C6 witness: set min_liked_for_artist to 5 on a fresh state; the key
reads back 5 and default_shuffle is unchanged. -/
theorem C6_set_then_load_witness :
    dictGet (load_config (set_config_value "min_liked_for_artist" (.vInt 5)
        (FsState.mk false .absent))).1 "min_liked_for_artist" =
      some (.vInt 5) ∧
    dictGet (load_config (set_config_value "min_liked_for_artist" (.vInt 5)
        (FsState.mk false .absent))).1 "default_shuffle" =
      dictGet (load_config (FsState.mk false .absent)).1 "default_shuffle" :=
  ⟨(C6_set_then_load "min_liked_for_artist" (.vInt 5)
      (FsState.mk false .absent)).1,
   (C6_set_then_load "min_liked_for_artist" (.vInt 5)
      (FsState.mk false .absent)).2 "default_shuffle" (by decide)⟩

/-- C7: whatever the prior file state, reset_to_defaults returns a copy of
DEFAULT_CONFIG and saves it, so a following load_config returns exactly
DEFAULT_CONFIG and every key outside DEFAULT_CONFIG reads as absent. -/
theorem C7_reset_then_load (fs : FsState) :
    (reset_to_defaults fs).1 = DEFAULT_CONFIG ∧
    (load_config (reset_to_defaults fs).2).1 = DEFAULT_CONFIG ∧
    ∀ k, k ∉ dictKeys DEFAULT_CONFIG →
      dictGet (load_config (reset_to_defaults fs).2).1 k = none := by
  refine ⟨rfl, dictMerge_DEFAULT_DEFAULT, ?_⟩
  intro k hk
  show dictGet (dictMerge DEFAULT_CONFIG DEFAULT_CONFIG) k = none
  rw [dictMerge_DEFAULT_DEFAULT]
  exact (dictGet_eq_none_iff _ _).mpr hk

/-- C7 witness: resetting a file that held a custom key; the key is absent
afterwards. -/
theorem C7_reset_then_load_witness :
    (reset_to_defaults (FsState.mk true
        (.doc [("custom_setting", Value.vStr "should_be_removed"),
               ("min_liked_for_artist", .vInt 999)]))).1 = DEFAULT_CONFIG ∧
    (load_config (reset_to_defaults (FsState.mk true
        (.doc [("custom_setting", Value.vStr "should_be_removed"),
               ("min_liked_for_artist", .vInt 999)]))).2).1 = DEFAULT_CONFIG ∧
    dictGet (load_config (reset_to_defaults (FsState.mk true
        (.doc [("custom_setting", Value.vStr "should_be_removed"),
               ("min_liked_for_artist", .vInt 999)]))).2).1
      "custom_setting" = none :=
  ⟨(C7_reset_then_load (FsState.mk true
      (.doc [("custom_setting", Value.vStr "should_be_removed"),
             ("min_liked_for_artist", .vInt 999)]))).1,
   (C7_reset_then_load (FsState.mk true
      (.doc [("custom_setting", Value.vStr "should_be_removed"),
             ("min_liked_for_artist", .vInt 999)]))).2.1,
   (C7_reset_then_load (FsState.mk true
      (.doc [("custom_setting", Value.vStr "should_be_removed"),
             ("min_liked_for_artist", .vInt 999)]))).2.2
     "custom_setting" (by decide)⟩

/-- C8: get_config_value returns the value at the key in the union of
DEFAULT_CONFIG and the persisted document when the key belongs to that
union, and returns the supplied fallback otherwise; the Python fallback
parameter defaults to the null marker, embedded as none. -/
theorem C8_get_value (k : String) (d : Option Value) (c : Cfg) (fs : FsState)
    (h : fs.file = .doc c) :
    (k ∈ dictKeys (dictMerge DEFAULT_CONFIG c) →
      (get_config_value k d fs).1 = dictGet (dictMerge DEFAULT_CONFIG c) k) ∧
    (k ∉ dictKeys (dictMerge DEFAULT_CONFIG c) →
      (get_config_value k d fs).1 = d) := by
  obtain ⟨dir, f⟩ := fs
  have hf : f = FileContent.doc c := h
  subst hf
  constructor
  · intro hk
    have hs : (dictGet (dictMerge DEFAULT_CONFIG c) k).isSome :=
      (dictGet_isSome_iff_mem _ _).mpr hk
    obtain ⟨v, hv⟩ := Option.isSome_iff_exists.mp hs
    show (match dictGet (dictMerge DEFAULT_CONFIG c) k with
          | some v => some v
          | none => d) = dictGet (dictMerge DEFAULT_CONFIG c) k
    rw [hv]
  · intro hk
    have hnone : dictGet (dictMerge DEFAULT_CONFIG c) k = none :=
      (dictGet_eq_none_iff _ _).mpr hk
    show (match dictGet (dictMerge DEFAULT_CONFIG c) k with
          | some v => some v
          | none => d) = d
    rw [hnone]

/-- C8 witness: a default key reads its stored value, and an unknown key
returns the supplied fallback. -/
theorem C8_get_value_witness :
    ("min_liked_for_artist" ∈ dictKeys (dictMerge DEFAULT_CONFIG
        [("custom_setting", Value.vStr "test")]) ∧
      (get_config_value "min_liked_for_artist" none (FsState.mk true
          (.doc [("custom_setting", Value.vStr "test")]))).1 =
        dictGet (dictMerge DEFAULT_CONFIG
          [("custom_setting", Value.vStr "test")]) "min_liked_for_artist") ∧
    ("non_existent_key" ∉ dictKeys (dictMerge DEFAULT_CONFIG
        [("custom_setting", Value.vStr "test")]) ∧
      (get_config_value "non_existent_key" (some (Value.vStr "default_value"))
          (FsState.mk true
            (.doc [("custom_setting", Value.vStr "test")]))).1 =
        some (Value.vStr "default_value")) :=
  ⟨⟨by decide,
    (C8_get_value "min_liked_for_artist" none
        [("custom_setting", Value.vStr "test")]
        (FsState.mk true (.doc [("custom_setting", Value.vStr "test")]))
        rfl).1 (by decide)⟩,
   ⟨by decide,
    (C8_get_value "non_existent_key" (some (Value.vStr "default_value"))
        [("custom_setting", Value.vStr "test")]
        (FsState.mk true (.doc [("custom_setting", Value.vStr "test")]))
        rfl).2 (by decide)⟩⟩

/-- C9: load_config is idempotent: a second load returns the same mapping
as the first and leaves the file-system state of the first load
unchanged. -/
theorem C9_load_idempotent (fs : FsState) :
    (load_config (load_config fs).2).1 = (load_config fs).1 ∧
    (load_config (load_config fs).2).2 = (load_config fs).2 := by
  obtain ⟨dir, f⟩ := fs
  cases f with
  | doc c => exact ⟨rfl, rfl⟩
  | absent => exact ⟨dictMerge_DEFAULT_DEFAULT, rfl⟩
  | malformed => exact ⟨dictMerge_DEFAULT_DEFAULT, rfl⟩

/-- C10: set_config_value on an absent file persists the insertion of the
pair into DEFAULT_CONFIG: the stored document holds the new value at the
key and every one of the six default keys, so it is never the singleton
mapping containing only that pair. -/
theorem C10_set_on_absent (k : String) (v : Value) (fs : FsState)
    (h : fs.file = .absent) :
    (set_config_value k v fs).file = .doc (dictInsert DEFAULT_CONFIG k v) ∧
    dictGet (dictInsert DEFAULT_CONFIG k v) k = some v ∧
    (∀ dk, dk ∈ dictKeys DEFAULT_CONFIG →
      (dictGet (dictInsert DEFAULT_CONFIG k v) dk).isSome) ∧
    ¬ MapEq (dictInsert DEFAULT_CONFIG k v) [(k, v)] := by
  obtain ⟨dir, f⟩ := fs
  have hf : f = FileContent.absent := h
  subst hf
  refine ⟨rfl, dictGet_insert_self _ _ _, ?_, ?_⟩
  · intro dk hdk
    exact isSome_dictGet_insert _ _ _ _ ((dictGet_isSome_iff_mem _ _).mpr hdk)
  · intro hmeq
    by_cases hk : k = "default_preview_length"
    · have h2 : dictGet [(k, v)] "default_shuffle" = none := by
        subst hk; simp [dictGet]
      have h3 : (dictGet (dictInsert DEFAULT_CONFIG k v)
          "default_shuffle").isSome :=
        isSome_dictGet_insert _ _ _ _ (by decide)
      rw [hmeq "default_shuffle", h2] at h3
      simp at h3
    · have h2 : dictGet [(k, v)] "default_preview_length" = none := by
        simp [dictGet, hk]
      have h3 : (dictGet (dictInsert DEFAULT_CONFIG k v)
          "default_preview_length").isSome :=
        isSome_dictGet_insert _ _ _ _ (by decide)
      rw [hmeq "default_preview_length", h2] at h3
      simp at h3

/-- C10 witness: setting a custom key on an absent file. -/
theorem C10_set_on_absent_witness :
    (FsState.mk false .absent).file = .absent ∧
    ((set_config_value "custom" (.vInt 7) (FsState.mk false .absent)).file =
        .doc (dictInsert DEFAULT_CONFIG "custom" (.vInt 7)) ∧
      dictGet (dictInsert DEFAULT_CONFIG "custom" (.vInt 7)) "custom" =
        some (.vInt 7) ∧
      (∀ dk, dk ∈ dictKeys DEFAULT_CONFIG →
        (dictGet (dictInsert DEFAULT_CONFIG "custom" (.vInt 7)) dk).isSome) ∧
      ¬ MapEq (dictInsert DEFAULT_CONFIG "custom" (.vInt 7))
        [("custom", .vInt 7)]) :=
  ⟨rfl, C10_set_on_absent "custom" (.vInt 7) (FsState.mk false .absent) rfl⟩
